import Mathlib

/-!
# Verification of the weather aggregation pipeline

Shallow embedding of the Go weather application (`weather/client.go`,
`weather/consensus.go`, `cmd/cli/main.go`) in Lean 4, together with proofs
settling the specification claims.

Embedding conventions:
* Go `float64` values are modelled as `ℚ` with Go's rounding/truncation
  operators made explicit (`goRound`, `goTrunc`); `math.MaxFloat64` is the
  exact rational value of the largest finite double.
* Timestamps (parsed from `"2006-01-02T15:04"` strings) are modelled as
  integer minutes on a linear clock; string formatting for display is elided.
* Go `int` arithmetic uses `Int.tdiv` / `Int.tmod` (truncation toward zero),
  matching Go's `/` and `%`.
* Network effects are modelled by oracles: a function giving the outcome of
  each HTTP attempt.  Out-of-bounds slice indexing (a Go panic) is modelled
  by `Option`-valued results, `none` meaning the program panics.
-/

set_option maxRecDepth 100000

namespace Weather

/-- Go's conversion `int(x)` from `float64`: truncation toward zero
(`q.num.tdiv q.den` is the numerator/denominator quotient truncated toward
zero). -/
def goTrunc (q : ℚ) : ℤ :=
  q.num.tdiv q.den

/-- Go's `math.Round`: round half away from zero. -/
def goRound (q : ℚ) : ℤ :=
  if q < 0 then -(goTrunc (-q + 1/2)) else goTrunc (q + 1/2)

/-- Composite `math.Round(x*10)/10`: round to one decimal place, as used throughout
`consensus.go`. -/
def round1 (q : ℚ) : ℚ :=
  (goRound (q * 10) : ℚ) / 10

/-- The largest finite `float64` (`math.MaxFloat64`), exactly. -/
def maxFloat64 : ℚ := 2 ^ 1024 - 2 ^ 971

-- ── Wind compass (client.go, `WindCompass`) ──────────────────────────────────

/-- The 8-point compass rose from `WindCompass`. -/
def windDirs : List String := ["N", "NE", "E", "SE", "S", "SW", "W", "NW"]

/-- Model of `WindCompass` from `client.go`:
`idx := int((float64(deg)+22.5)/45.0) % 8; return dirs[idx]`.
The array access panics when `idx` is negative; the panic is modelled by
`none`. -/
def WindCompass (deg : ℤ) : Option String :=
  let idx : ℤ := (goTrunc (((deg : ℚ) + 22.5) / 45)).tmod 8
  if idx < 0 then none else windDirs.get? idx.toNat

-- ── WMO code decoding (client.go, `WMODescription` / `WMOIconClass`) ─────────

/-- Model of `WMODescription` from `client.go`: WMO weather code to description. -/
def WMODescription (code : ℤ) : String :=
  if code = 0 then "Clear sky"
  else if code = 1 then "Mainly clear"
  else if code = 2 then "Partly cloudy"
  else if code = 3 then "Overcast"
  else if code = 45 ∨ code = 48 then "Fog"
  else if 51 ≤ code ∧ code ≤ 53 then "Light drizzle"
  else if code = 55 then "Dense drizzle"
  else if code = 61 then "Slight rain"
  else if code = 63 then "Moderate rain"
  else if code = 65 then "Heavy rain"
  else if code = 71 then "Slight snow"
  else if code = 73 then "Moderate snow"
  else if code = 75 then "Heavy snow"
  else if code = 77 then "Snow grains"
  else if 80 ≤ code ∧ code ≤ 82 then "Rain showers"
  else if 85 ≤ code ∧ code ≤ 86 then "Snow showers"
  else if code = 95 then "Thunderstorm"
  else if code = 96 ∨ code = 99 then "Thunderstorm with hail"
  else "Unknown"

/-- Model of `WMOIconClass` from `client.go`: WMO weather code to CSS icon class. -/
def WMOIconClass (code : ℤ) : String :=
  if code = 0 then "wi-day-sunny"
  else if code = 1 then "wi-day-sunny-overcast"
  else if code = 2 then "wi-day-cloudy"
  else if code = 3 then "wi-cloudy"
  else if code = 45 ∨ code = 48 then "wi-fog"
  else if 51 ≤ code ∧ code ≤ 53 then "wi-sprinkle"
  else if code = 55 then "wi-rain-mix"
  else if code = 61 then "wi-rain-mix"
  else if code = 63 then "wi-rain"
  else if code = 65 then "wi-rain-wind"
  else if code = 71 then "wi-snow"
  else if code = 73 then "wi-snow"
  else if code = 75 then "wi-snow-wind"
  else if code = 77 then "wi-snowflake-cold"
  else if 80 ≤ code ∧ code ≤ 82 then "wi-showers"
  else if 85 ≤ code ∧ code ≤ 86 then "wi-snow"
  else if code = 95 then "wi-thunderstorm"
  else if code = 96 ∨ code = 99 then "wi-storm-showers"
  else "wi-na"

-- ── Moon phase (client.go, `moonPhase` / `moonPhaseName`) ────────────────────

/-- Model of `synodicMonth` (days), exactly as the Go constant `29.530589`. -/
def synodicMonth : ℚ := 29530589 / 1000000

/-- The reference new-moon epoch, in minutes on the model clock.  (The Go
code uses 2000-01-06 18:14 UTC; its absolute value is irrelevant to the
claims, only that it is a fixed constant.) -/
def referenceNewMoon : ℤ := 0

/-- Go's `math.Mod`: truncated floating-point remainder. -/
def goFmod (x y : ℚ) : ℚ := x - (goTrunc (x / y) : ℚ) * y

/-- Model of `moonPhase` from `client.go`: fraction of the synodic month elapsed since
the reference new moon, in `[0, 1)`.  `t` is in minutes. -/
def moonPhase (t : ℤ) : ℚ :=
  let days : ℚ := ((t - referenceNewMoon : ℤ) : ℚ) / 60 / 24
  let phase := goFmod days synodicMonth / synodicMonth
  if phase < 0 then phase + 1 else phase

/-- Model of `moonPhaseName` from `client.go`. -/
def moonPhaseName (p : ℚ) : String :=
  if p < 0.034 ∨ p ≥ 0.966 then "New Moon"
  else if p < 0.216 then "Waxing Crescent"
  else if p < 0.284 then "First Quarter"
  else if p < 0.466 then "Waxing Gibbous"
  else if p < 0.534 then "Full Moon"
  else if p < 0.716 then "Waning Gibbous"
  else if p < 0.784 then "Last Quarter"
  else "Waning Crescent"

-- ── Sun bar (client.go, `buildSunBar`) ───────────────────────────────────────

/-- Model of `SunBar` from `client.go`.  Timestamps are minutes on the model clock;
the Go `"15:04"` display formatting is elided, and `DaylightHours` keeps the
computed hour/minute pair instead of the formatted string. -/
structure SunBar where
  SunriseTime : ℤ := 0
  SunsetTime : ℤ := 0
  CurrentTime : ℤ := 0
  SunPositionPct : ℚ := 0
  IsDay : Bool := false
  DaylightH : ℤ := 0
  DaylightM : ℤ := 0
  MoonPhase : ℚ := 0
  MoonPhaseName : String := ""
  deriving Repr, DecidableEq

/-- Model of `buildSunBar` from `client.go`, after timestamp parsing: all three inputs
are minutes on the model clock (the Go code parses the strings in the
location's timezone; parsing and formatting are elided). -/
def buildSunBar (now sunrise sunset : ℤ) : SunBar :=
  let daylightMins : ℤ := sunset - sunrise
  let h := daylightMins.tdiv 60
  let m := daylightMins.tmod 60
  let isDay : Bool := decide (sunrise < now) && decide (now < sunset)
  let positionPct : ℚ :=
    if daylightMins > 0 then
      max 0 (min 100 (((now - sunrise : ℤ) : ℚ) / (daylightMins : ℚ) * 100))
    else 0
  let mp := moonPhase now
  { SunriseTime := sunrise
    SunsetTime := sunset
    CurrentTime := now
    SunPositionPct := positionPct
    IsDay := isDay
    DaylightH := h
    DaylightM := m
    MoonPhase := mp
    MoonPhaseName := moonPhaseName mp }

-- ── Raw API data and display types (client.go) ───────────────────────────────

/-- Model of `currentRaw` from `client.go`.  `Time` is minutes on the model clock. -/
structure CurrentRaw where
  Time : ℤ := 0
  Temperature : ℚ := 0
  FeelsLike : ℚ := 0
  Humidity : ℤ := 0
  WeatherCode : ℤ := 0
  CloudCover : ℤ := 0
  WindSpeed : ℚ := 0
  WindDir : ℤ := 0
  Pressure : ℚ := 0
  DewPoint : ℚ := 0
  UVIndex : ℚ := 0
  deriving Repr, DecidableEq

/-- Model of `dailyRaw` from `client.go`.  `Time` keeps the opaque date strings;
`Sunrise`/`Sunset` are parsed to minutes on the model clock. -/
structure DailyRaw where
  Time : List String := []
  WeatherCode : List ℤ := []
  TempMax : List ℚ := []
  TempMin : List ℚ := []
  WindMax : List ℚ := []
  PrecipProbMax : List ℤ := []
  Sunrise : List ℤ := []
  Sunset : List ℤ := []
  deriving Repr, DecidableEq

/-- Model of `hourlyRaw` from `client.go`.  Each `Time` entry is `some` of its parsed
value in minutes, or `none` when the timestamp fails to parse (the Go loop
skips such entries). -/
structure HourlyRaw where
  Time : List (Option ℤ) := []
  Temperature : List ℚ := []
  PrecipProb : List ℤ := []
  WeatherCode : List ℤ := []
  WindSpeed : List ℚ := []
  deriving Repr, DecidableEq

/-- Model of `CurrentDisplay` from `client.go`. -/
structure CurrentDisplay where
  Time : ℤ := 0
  Temp : ℚ := 0
  FeelsLike : ℚ := 0
  Humidity : ℤ := 0
  Description : String := ""
  Icon : String := ""
  CloudCover : ℤ := 0
  WindSpeed : ℚ := 0
  WindDir : ℤ := 0
  Pressure : ℚ := 0
  DewPoint : ℚ := 0
  UVIndex : ℚ := 0
  deriving Repr, DecidableEq

/-- Model of `ForecastDay` from `client.go`. -/
structure ForecastDay where
  Date : String := ""
  Description : String := ""
  Icon : String := ""
  TempMax : ℚ := 0
  TempMin : ℚ := 0
  WindMax : ℚ := 0
  PrecipProb : ℤ := 0
  deriving Repr, DecidableEq

/-- Model of `HourlyPoint` from `client.go`.  `Time` keeps the parsed timestamp in
minutes (the Go code stores it formatted as `"15:04"`). -/
structure HourlyPoint where
  Time : ℤ := 0
  Temp : ℚ := 0
  PrecipProb : ℤ := 0
  Description : String := ""
  Icon : String := ""
  WindSpeed : ℚ := 0
  deriving Repr, DecidableEq

/-- Model of `safeInt` from `client.go`: in-bounds index or zero. -/
def safeInt (s : List ℤ) (i : ℕ) : ℤ := s.getD i 0

/-- Model of `safeFloat` from `client.go`: in-bounds index or zero. -/
def safeFloat (s : List ℚ) (i : ℕ) : ℚ := s.getD i 0

-- ── Hourly parsing (client.go, `parseHourly`) ────────────────────────────────

/-- The loop body of `parseHourly`: iterates over the remaining `Time`
entries, `i` being the current index into the parallel arrays and `count`
the number of points accumulated so far (`len(points)` in Go). -/
def parseHourlyLoop (h : HourlyRaw) (now : ℤ) :
    List (Option ℤ) → ℕ → ℕ → List HourlyPoint
  | [], _, _ => []
  | none :: rest, i, count => parseHourlyLoop h now rest (i + 1) count
  | some t :: rest, i, count =>
    if t < now then parseHourlyLoop h now rest (i + 1) count
    else if count ≥ 24 then []
    else
      let wc := safeInt h.WeatherCode i
      { Time := t
        Temp := safeFloat h.Temperature i
        PrecipProb := safeInt h.PrecipProb i
        Description := WMODescription wc
        Icon := WMOIconClass wc
        WindSpeed := safeFloat h.WindSpeed i } ::
        parseHourlyLoop h now rest (i + 1) (count + 1)

/-- Model of `parseHourly` from `client.go`.  `now` is `none` when the current-time
string fails to parse (the Go code returns `nil` in that case). -/
def parseHourly (h : HourlyRaw) (now : Option ℤ) : List HourlyPoint :=
  match now with
  | none => []
  | some n => parseHourlyLoop h n h.Time 0 0

-- ── Daily forecast (client.go, `GetWeather` daily loop) ──────────────────────

/-- The daily-forecast loop of `GetWeather` (client.go lines 320–337).
The loop breaks when `i` reaches the end of `WeatherCode` or `TempMax`;
`PrecipProbMax` is bounds-checked explicitly; `TempMin[i]` and `WindMax[i]`
are indexed without a bounds check, so a too-short array panics — modelled
by `none`. -/
def buildForecastLoop (d : DailyRaw) : List String → ℕ → Option (List ForecastDay)
  | [], _ => some []
  | date :: rest, i =>
    if i ≥ d.WeatherCode.length ∨ i ≥ d.TempMax.length then some []
    else
      let precipProb := if i < d.PrecipProbMax.length then d.PrecipProbMax.getD i 0 else 0
      match d.TempMin.get? i, d.WindMax.get? i with
      | some tmin, some wmax =>
        (buildForecastLoop d rest (i + 1)).map
          (fun tail =>
            { Date := date
              Description := WMODescription (d.WeatherCode.getD i 0)
              Icon := WMOIconClass (d.WeatherCode.getD i 0)
              TempMax := d.TempMax.getD i 0
              TempMin := tmin
              WindMax := wmax
              PrecipProb := precipProb } :: tail)
      | _, _ => none

/-- Building the `Forecast` field of the report from the daily block. -/
def buildForecast (d : DailyRaw) : Option (List ForecastDay) :=
  buildForecastLoop d d.Time 0

-- ── Upstream gateway errors (client.go, `getJSON`) ───────────────────────────

/-- The three terminal failure shapes `getJSON` can produce (client.go):
network-level request failure, non-OK HTTP status with truncated body,
and JSON decode failure. -/
inductive FetchErr where
  | network (msg : String)
  | apiStatus (code : ℕ) (body : String)
  | decodeFail (msg : String)
  deriving Repr, DecidableEq

/-- The error strings `getJSON` formats for each failure
(`"request failed: %w"`, `"API error %d: %s"`, `"decode failed: %w"`). -/
def renderFetchErr : FetchErr → String
  | .network m => "request failed: " ++ m
  | .apiStatus c b => "API error " ++ toString c ++ ": " ++ b
  | .decodeFail m => "decode failed: " ++ m

-- ── Consensus engine (consensus.go) ──────────────────────────────────────────

/-- Model of `forecastModels` from `consensus.go`: (display name, API model param). -/
def forecastModels : List (String × String) :=
  [("ECMWF", "ecmwf_ifs025"),
   ("ICON", "icon_seamless"),
   ("Météo-France", "meteofrance_seamless"),
   ("MET Norway", "metno_seamless")]

/-- Model of `modelCurrentRaw` from `consensus.go`: pointer fields decode JSON `null`
to `none` instead of failing. -/
structure ModelCurrentRaw where
  Temp : Option ℚ := none
  Humidity : Option ℤ := none
  Wind : Option ℚ := none
  Pressure : Option ℚ := none
  WMOCode : Option ℤ := none
  deriving Repr, DecidableEq

/-- Model of `ModelReading` from `consensus.go`. -/
structure ModelReading where
  Model : String := ""
  Temp : ℚ := 0
  Humidity : ℤ := 0
  WindSpeed : ℚ := 0
  Pressure : ℚ := 0
  WeatherCode : ℤ := 0
  Available : Bool := false
  Err : String := ""
  deriving Repr, DecidableEq

/-- Model of `ConsensusInfo` from `consensus.go`. -/
structure ConsensusInfo where
  Models : List ModelReading := []
  AvailCount : ℕ := 0
  AvgTemp : ℚ := 0
  AvgHumidity : ℤ := 0
  AvgWind : ℚ := 0
  AvgPressure : ℚ := 0
  MinTemp : ℚ := 0
  MaxTemp : ℚ := 0
  Spread : ℚ := 0
  Agreement : String := ""
  AgreePct : ℤ := 0
  deriving Repr, DecidableEq

/-- Model of `fetchModel` from `consensus.go`, given the decoded outcome of its
gateway call (`resp`): on a gateway error the reading keeps the rendered
error string; a response missing temperature or humidity is marked
`"incomplete data"`; otherwise the reading is available, with `nil`
wind/pressure/code fields left at zero. -/
def fetchModel (name : String) (resp : Except FetchErr ModelCurrentRaw) : ModelReading :=
  let r : ModelReading := { Model := name }
  match resp with
  | .error e => { r with Err := renderFetchErr e }
  | .ok cur =>
    match cur.Temp, cur.Humidity with
    | some temp, some hum =>
      { r with
        Temp := temp
        Humidity := hum
        WindSpeed := cur.Wind.getD 0
        Pressure := cur.Pressure.getD 0
        WeatherCode := cur.WMOCode.getD 0
        Available := true }
    | _, _ => { r with Err := "incomplete data" }

/-- The running state of the aggregation loop in `FetchConsensus`. -/
structure AggState where
  sumTemp : ℚ := 0
  sumWind : ℚ := 0
  sumPressure : ℚ := 0
  sumHumidity : ℤ := 0
  count : ℕ := 0
  minTemp : ℚ := maxFloat64
  maxTemp : ℚ := -maxFloat64
  deriving Repr, DecidableEq

/-- One iteration of the aggregation loop of `FetchConsensus`: unavailable
readings are skipped; `if r.Temp < minTemp` / `if r.Temp > maxTemp` update
the extremes. -/
def aggStep (s : AggState) (r : ModelReading) : AggState :=
  if r.Available then
    { sumTemp := s.sumTemp + r.Temp
      sumWind := s.sumWind + r.WindSpeed
      sumPressure := s.sumPressure + r.Pressure
      sumHumidity := s.sumHumidity + r.Humidity
      count := s.count + 1
      minTemp := if r.Temp < s.minTemp then r.Temp else s.minTemp
      maxTemp := if r.Temp > s.maxTemp then r.Temp else s.maxTemp }
  else s

/-- The statistics part of `FetchConsensus` (consensus.go lines 127–181),
as a function of the per-model readings. -/
def consensusStats (readings : List ModelReading) : ConsensusInfo :=
  let s := readings.foldl aggStep {}
  if s.count = 0 then
    { Models := readings }
  else
    let minT := round1 s.minTemp
    let maxT := round1 s.maxTemp
    let spread := round1 (maxT - minT)
    let pct0 : ℤ := 100 - goTrunc (spread * 12)
    let pct := if pct0 < 0 then 0 else pct0
    { Models := readings
      AvailCount := s.count
      MinTemp := minT
      MaxTemp := maxT
      AvgTemp := round1 (s.sumTemp / s.count)
      AvgHumidity := s.sumHumidity.tdiv s.count
      AvgWind := round1 (s.sumWind / s.count)
      AvgPressure := round1 (s.sumPressure / s.count)
      Spread := spread
      AgreePct := pct
      Agreement :=
        if pct ≥ 80 then "High"
        else if pct ≥ 50 then "Moderate"
        else "Low" }

/-- Model of `FetchConsensus` from `consensus.go`.  The network is abstracted by
`fetch`, which maps a model's (name, API param) to the decoded outcome of
its gateway call; the URL assembly from `lat`/`lon`/`timezone`/units is
elided (those values only feed the URL).  The Go function launches the four
fetches concurrently and joins them all; the joined `readings` array is, in
every interleaving, `readings[i] = fetchModel(models[i]...)`, which is what
the `List.map` denotes. -/
def FetchConsensus (fetch : String → String → Except FetchErr ModelCurrentRaw) : ConsensusInfo :=
  consensusStats (forecastModels.map fun m => fetchModel m.1 (fetch m.1 m.2))

-- ── Gateway retry loop (client.go, `getJSON`) ────────────────────────────────

/-- The observable outcome of one HTTP attempt inside `getJSON`: either the
request itself fails at the network level, or a response arrives with a
status code, a (truncated) body, and — when the body is decoded — the decode
outcome. -/
inductive Attempt where
  | netErr (msg : String)
  | resp (status : ℕ) (body : String) (decode : Except String Unit)
  deriving Repr

/-- Model of `maxAttempts` from `getJSON`. -/
def maxAttempts : ℕ := 2

/-- The response-handling closure inside `getJSON`: non-OK status is an
`"API error"`, a decode failure is `"decode failed"`, otherwise success. -/
def respResult (status : ℕ) (body : String) (decode : Except String Unit) :
    Except String Unit :=
  if status ≠ 200 then .error (renderFetchErr (.apiStatus status body))
  else
    match decode with
    | .error m => .error (renderFetchErr (.decodeFail m))
    | .ok _ => .ok ()

/-- The retry loop of `getJSON`.  `f` gives each attempt's outcome, `fuel`
counts the iterations left (`maxAttempts - attempt`), `used` the attempts
already made, `lastErr` the saved network error.  Returns the final result
together with the number of attempts made.  (The `time.Sleep` backoff before
a retry is a real-time effect with no logical content; it is elided.) -/
def getJSONLoop (f : ℕ → Attempt) :
    ℕ → ℕ → Option String → (Except String Unit) × ℕ
  | 0, used, lastErr => (.error (lastErr.getD ""), used)
  | fuel + 1, used, _ =>
    match f used with
    | .netErr m => getJSONLoop f fuel (used + 1) (some (renderFetchErr (.network m)))
    | .resp s b d => (respResult s b d, used + 1)

/-- Model of `getJSON` from `client.go`: the result of the call and how many HTTP
attempts it made. -/
def getJSON (f : ℕ → Attempt) : (Except String Unit) × ℕ :=
  getJSONLoop f maxAttempts 0 none

-- ── Report assembly (client.go, `GetWeather`) ────────────────────────────────

/-- Model of `GeoLocation` from `client.go`. -/
structure GeoLocation where
  Name : String := ""
  Latitude : ℚ := 0
  Longitude : ℚ := 0
  Country : String := ""
  CountryCode : String := ""
  Timezone : String := ""
  deriving Repr, DecidableEq

/-- Model of `OutfitItem` from the outfit module. -/
structure OutfitItem where
  Icon : String := ""
  Label : String := ""
  Note : String := ""
  Color : String := ""
  deriving Repr, DecidableEq

/-- Model of `OutfitAdvice` from the outfit module. -/
structure OutfitAdvice where
  Headline : String := ""
  Items : List OutfitItem := []
  TempTier : String := ""
  deriving Repr, DecidableEq

/-- Model of `forecastRaw` from `client.go`. -/
structure ForecastRaw where
  Current : CurrentRaw := {}
  Daily : DailyRaw := {}
  Hourly : HourlyRaw := {}
  deriving Repr, DecidableEq

/-- Model of `WeatherInfo` from `client.go`.  `Consensus` is a Go pointer, modelled
as `Option`. -/
structure WeatherInfo where
  CityName : String := ""
  Country : String := ""
  CountryCode : String := ""
  TempUnit : String := ""
  WindUnit : String := ""
  Current : CurrentDisplay := {}
  Forecast : List ForecastDay := []
  Hourly : List HourlyPoint := []
  Sun : SunBar := {}
  Consensus : Option ConsensusInfo := none
  Outfit : OutfitAdvice := {}
  deriving Repr, DecidableEq

/-- Model of `TempUnitSymbol` from `client.go`. -/
def TempUnitSymbol (units : String) : String :=
  if units = "imperial" then "°F" else "°C"

/-- Model of `WindUnitLabel` from `client.go`. -/
def WindUnitLabel (units : String) : String :=
  if units = "imperial" then "mph" else "km/h"

/-- The report-assembly phase of `GetWeather` (client.go lines 298–352),
after the geocoding call and the primary forecast fetch have succeeded and
decoded to `raw`.  `fetch` is the consensus engine's network oracle and
`buildOutfit` the outfit builder from the (out-of-core) outfit module.
Result is `none` when the daily loop panics on a short `TempMin`/`WindMax`
array. -/
def assembleReport (loc : GeoLocation) (units : String) (raw : ForecastRaw)
    (fetch : String → String → Except FetchErr ModelCurrentRaw)
    (buildOutfit : WeatherInfo → OutfitAdvice) : Option WeatherInfo :=
  match buildForecast raw.Daily with
  | none => none
  | some forecast =>
    let info : WeatherInfo :=
      { CityName := loc.Name
        Country := loc.Country
        CountryCode := loc.CountryCode
        TempUnit := TempUnitSymbol units
        WindUnit := WindUnitLabel units
        Current :=
          { Time := raw.Current.Time
            Temp := raw.Current.Temperature
            FeelsLike := raw.Current.FeelsLike
            Humidity := raw.Current.Humidity
            Description := WMODescription raw.Current.WeatherCode
            Icon := WMOIconClass raw.Current.WeatherCode
            CloudCover := raw.Current.CloudCover
            WindSpeed := raw.Current.WindSpeed
            WindDir := raw.Current.WindDir
            Pressure := raw.Current.Pressure
            DewPoint := raw.Current.DewPoint
            UVIndex := raw.Current.UVIndex }
        Forecast := forecast }
    let info :=
      if raw.Daily.Sunrise.length > 0 ∧ raw.Daily.Sunset.length > 0 then
        { info with
          Sun := buildSunBar raw.Current.Time (raw.Daily.Sunrise.getD 0 0)
                   (raw.Daily.Sunset.getD 0 0) }
      else info
    let info := { info with Hourly := parseHourly raw.Hourly (some raw.Current.Time) }
    let info := { info with Outfit := buildOutfit info }
    let info := { info with Consensus := some (FetchConsensus fetch) }
    some info

-- ── Report cache (cmd/cli/main.go) ───────────────────────────────────────────

/-- Model of `cacheTTL` in minutes on the model clock (Go: `10 * time.Minute`). -/
def cacheTTL : ℤ := 10

/-- Model of `cacheMaxSize` from `cmd/cli/main.go`. -/
def cacheMaxSize : ℕ := 200

/-- Model of `cacheEntry` from `cmd/cli/main.go`. -/
structure CacheEntry where
  info : WeatherInfo
  expires : ℤ
  createdAt : ℤ
  deriving Repr, DecidableEq

/-- The cache map, modelled as an association list whose order stands for
the Go map's iteration order; well-formed states have pairwise-distinct
keys. -/
abbrev CacheState : Type := List (String × CacheEntry)

/-- Go map lookup `cache[key]`. -/
def cacheLookup (st : CacheState) (key : String) : Option CacheEntry :=
  ((st : List (String × CacheEntry)).find? fun p => p.1 = key).map (·.2)

/-- Model of `cacheGet` from `cmd/cli/main.go`: present and unexpired
(`time.Now().Before(e.expires)`), else absent. -/
def cacheGet (now : ℤ) (st : CacheState) (key : String) : Option WeatherInfo :=
  match cacheLookup st key with
  | some e => if now < e.expires then some e.info else none
  | none => none

/-- One step of the eviction scan of `cacheSet`
(`oldest == "" || e.createdAt.Before(oldestTime)`; the `""`-sentinel initial
state is modelled by `none`). -/
def scanStep (acc : Option (String × ℤ)) (p : String × CacheEntry) :
    Option (String × ℤ) :=
  match acc with
  | none => some (p.1, p.2.createdAt)
  | some (k, t) => if p.2.createdAt < t then some (p.1, p.2.createdAt) else some (k, t)

/-- The eviction scan of `cacheSet`: the entry with the oldest creation
time (first seen wins ties of the strict `Before` comparison). -/
def scanOldest (st : CacheState) : Option (String × ℤ) :=
  (st : List (String × CacheEntry)).foldl scanStep none

/-- Go map update `cache[key] = e`: replace in place, or append when new. -/
def cacheInsert (st : CacheState) (key : String) (e : CacheEntry) : CacheState :=
  if (cacheLookup st key).isSome then
    (st : List (String × CacheEntry)).map fun p => if p.1 = key then (key, e) else p
  else st ++ [(key, e)]

/-- Model of `cacheSet` from `cmd/cli/main.go`: when inserting a brand-new key at
capacity, first evict the entry with the oldest creation time, then store
the fresh entry with expiry `now + cacheTTL`. -/
def cacheSet (now : ℤ) (st : CacheState) (key : String) (info : WeatherInfo) :
    CacheState :=
  let st1 :=
    if (cacheLookup st key).isNone ∧ st.length ≥ cacheMaxSize then
      match scanOldest st with
      | some (oldest, _) => (st : List (String × CacheEntry)).filter fun p => p.1 ≠ oldest
      | none => st
    else st
  cacheInsert st1 key { info := info, expires := now + cacheTTL, createdAt := now }

/-- A representative at-capacity cache state: `cacheMaxSize` entries with
pairwise-distinct keys, entry `i` created at time `i` with expiry `i + 10`. -/
def st200 : CacheState :=
  (List.range cacheMaxSize).map fun i =>
    (toString i, { info := {}, expires := (i : ℤ) + 10, createdAt := (i : ℤ) })

-- ── Specification-side auxiliary definitions ─────────────────────────────────

/-- A gateway outcome that `fetchModel` marks unavailable: an error, or a
response missing the temperature or humidity field. -/
def unavailableResp (r : Except FetchErr ModelCurrentRaw) : Prop :=
  match r with
  | .error _ => True
  | .ok c => c.Temp = none ∨ c.Humidity = none

/-- The temperatures of the available readings, in order. -/
def availTemps (rs : List ModelReading) : List ℚ :=
  (rs.filter (·.Available)).map (·.Temp)

/-- Minimum of a list of rationals (0 for the empty list); used to state
what the consensus fold computes. -/
def listMin : List ℚ → ℚ
  | [] => 0
  | t :: ts => ts.foldl min t

/-- Maximum of a list of rationals (0 for the empty list). -/
def listMax : List ℚ → ℚ
  | [] => 0
  | t :: ts => ts.foldl max t

/-! ## Claim theorems -/

/-- Evaluation of `goTrunc` on a nonnegative rational: its floor. -/
theorem goTrunc_of_nonneg {q : ℚ} (h : 0 ≤ q) : goTrunc q = ⌊q⌋ := by
  unfold goTrunc
  rw [Rat.floor_def]
  exact Int.tdiv_eq_ediv (Rat.num_nonneg.mpr h) (Int.ofNat_nonneg _)

/-- Evaluation of `goTrunc` on negatives: truncation toward zero is the negated
floor of the negation. -/
theorem goTrunc_of_neg {q : ℚ} (h : q < 0) : goTrunc q = -⌊-q⌋ := by
  unfold goTrunc
  rw [Rat.floor_def, Rat.neg_num, Rat.neg_den]
  rw [show q.num.tdiv q.den = -((-q.num).tdiv q.den) by
    rw [Int.neg_tdiv]; ring]
  congr 1
  exact Int.tdiv_eq_ediv (by
    have : q.num < 0 := Rat.num_neg.mpr h
    omega) (Int.ofNat_nonneg _)

theorem goTrunc_nonneg {q : ℚ} (h : -1 < q) : 0 ≤ goTrunc q := by
  rcases lt_or_le q 0 with hneg | hpos
  · rw [goTrunc_of_neg hneg]
    have h1 : (-q : ℚ) < 1 := by linarith
    have h2 : ⌊-q⌋ < 1 := Int.floor_lt.mpr (by exact_mod_cast h1)
    have h3 : 0 ≤ ⌊-q⌋ := Int.floor_nonneg.mpr (by linarith)
    omega
  · rw [goTrunc_of_nonneg hpos]
    exact Int.floor_nonneg.mpr hpos

/-- C10 counterexample: the claim says the computed compass index is in
bounds for every integer degree, including values outside `[0, 360)`; but at
`deg = -90` the index is `int(-67.5/45) % 8 = -1` and the array access is
out of bounds (a Go panic, modelled by `none`). -/
theorem windCompass_oob_at_neg90 : WindCompass (-90) = none := by
  have hq : ((((-90) : ℤ) : ℚ) + 22.5) / 45 = -(3/2) := by norm_num
  have ht : goTrunc (((((-90) : ℤ) : ℚ) + 22.5) / 45) = -1 := by
    rw [hq, goTrunc_of_neg (by norm_num)]
    norm_num
  simp only [WindCompass, ht]
  decide

/-- C10 (amended): for every degree `deg ≥ -67` (in particular all of
`[0, 360)` and all larger values) the computed index is in bounds and
`WindCompass` returns one of the eight compass labels.  The claimed
guarantee fails below `-67`: at some such degrees the Go `%` of the
negative truncated quotient is negative and the access is out of bounds
(`deg = -90` gives index `-1`, see the counterexample) — though not at all
of them, since a quotient that is a negative multiple of 8 wraps to
index 0 (`deg = -383` gives `int(-8.01...) % 8 = 0`, hence `"N"`). -/
theorem windCompass_in_bounds (deg : ℤ) (h : -67 ≤ deg) :
    ∃ s ∈ windDirs, WindCompass deg = some s := by
  have hq1 : (-1 : ℚ) < ((deg : ℚ) + 22.5) / 45 := by
    rw [lt_div_iff₀ (by norm_num : (0 : ℚ) < 45)]
    have : ((-67 : ℤ) : ℚ) ≤ (deg : ℚ) := by exact_mod_cast h
    push_cast at this ⊢
    linarith
  have h0 : 0 ≤ goTrunc (((deg : ℚ) + 22.5) / 45) := goTrunc_nonneg hq1
  have hmod0 : 0 ≤ (goTrunc (((deg : ℚ) + 22.5) / 45)).tmod 8 := Int.tmod_nonneg _ h0
  have hmod8 : (goTrunc (((deg : ℚ) + 22.5) / 45)).tmod 8 < 8 :=
    Int.tmod_lt_of_pos _ (by norm_num)
  have hlt : ((goTrunc (((deg : ℚ) + 22.5) / 45)).tmod 8).toNat < windDirs.length := by
    simp only [windDirs, List.length]
    omega
  refine ⟨windDirs.get ⟨_, hlt⟩, List.get_mem _ _ _, ?_⟩
  simp only [WindCompass]
  rw [if_neg (by omega)]
  exact List.get?_eq_get hlt

/-- C3 counterexample: the claim says the day flag is true exactly on the
half-open interval `[sunrise, sunset)`, in particular at `now = sunrise`;
but `buildSunBar` uses `now.After(sunrise)`, which is strict, so at
`now = sunrise = 0`, `sunset = 10` the flag is false although
`0 ∈ [0, 10)`. -/
theorem isDay_not_halfopen :
    ¬ (((buildSunBar 0 0 10).IsDay = true) ↔ ((0 : ℤ) ≤ 0 ∧ (0 : ℤ) < 10)) := by
  decide

/-- C3 (amended): the day flag is true exactly when `now` lies in the open
interval `(sunrise, sunset)`: `isDay = now.After(sunrise) && now.Before(sunset)`
is strict at both ends, so it is false both at `now = sunrise` and at
`now = sunset`. -/
theorem isDay_iff_open_interval (now sunrise sunset : ℤ) :
    (buildSunBar now sunrise sunset).IsDay = true ↔
      (sunrise < now ∧ now < sunset) := by
  simp [buildSunBar]

/-- C7 counterexample: the claim says "now after sunset yields 100" for
every input, but when the daylight duration is not positive the code
returns 0: with `sunrise = 10`, `sunset = 0`, `now = 5` we have
`sunset < now` yet the position is 0, not 100. -/
theorem sunPosition_after_sunset_not_100 :
    (buildSunBar 5 10 0).SunsetTime < (buildSunBar 5 10 0).CurrentTime ∧
      (buildSunBar 5 10 0).SunPositionPct = 0 ∧
      (buildSunBar 5 10 0).SunPositionPct ≠ 100 := by
  decide

/-- C7 (amended): the sun-position percentage always lies in `[0, 100]`; it
equals `(now−sunrise)/(sunset−sunrise)×100` clamped to `[0, 100]` when the
daylight duration is positive and `0` (never a division by zero) when the
duration is zero or negative; `now ≤ sunrise` yields `0`, and `now ≥ sunset`
yields `100` provided the daylight duration is positive. -/
theorem sunPosition_clamped (now sunrise sunset : ℤ) :
    (0 ≤ (buildSunBar now sunrise sunset).SunPositionPct ∧
      (buildSunBar now sunrise sunset).SunPositionPct ≤ 100) ∧
    (0 < sunset - sunrise →
      (buildSunBar now sunrise sunset).SunPositionPct =
        max 0 (min 100 (((now - sunrise : ℤ) : ℚ) / ((sunset - sunrise : ℤ) : ℚ) * 100))) ∧
    (sunset - sunrise ≤ 0 → (buildSunBar now sunrise sunset).SunPositionPct = 0) ∧
    (now ≤ sunrise → (buildSunBar now sunrise sunset).SunPositionPct = 0) ∧
    (0 < sunset - sunrise → sunset ≤ now →
      (buildSunBar now sunrise sunset).SunPositionPct = 100) := by
  simp only [buildSunBar]
  by_cases hd : (0 : ℤ) < sunset - sunrise
  · have hdq : (0 : ℚ) < ((sunset - sunrise : ℤ) : ℚ) := by exact_mod_cast hd
    rw [if_pos hd]
    refine ⟨⟨le_max_left _ _, ?_⟩, fun _ => rfl, fun h => absurd hd (not_lt.mpr h), ?_, ?_⟩
    · exact max_le (by norm_num) ((min_le_left _ _))
    · intro hns
      have hx : ((now - sunrise : ℤ) : ℚ) / ((sunset - sunrise : ℤ) : ℚ) * 100 ≤ 0 := by
        apply mul_nonpos_of_nonpos_of_nonneg
        · apply div_nonpos_of_nonpos_of_nonneg _ (le_of_lt hdq)
          exact_mod_cast sub_nonpos.mpr hns
        · norm_num
      rw [min_eq_right (hx.trans (by norm_num))]
      exact max_eq_left hx
    · intro _ hsn
      have hx : (100 : ℚ) ≤ ((now - sunrise : ℤ) : ℚ) / ((sunset - sunrise : ℤ) : ℚ) * 100 := by
        have h1 : (1 : ℚ) ≤ ((now - sunrise : ℤ) : ℚ) / ((sunset - sunrise : ℤ) : ℚ) := by
          rw [le_div_iff₀ hdq]
          push_cast
          linarith [(by exact_mod_cast hsn : ((sunset : ℤ) : ℚ) ≤ ((now : ℤ) : ℚ))]
        nlinarith
      rw [min_eq_left hx, max_eq_right (by norm_num : (0 : ℚ) ≤ 100)]
  · rw [if_neg hd]
    exact ⟨⟨le_refl 0, by norm_num⟩, fun h => absurd h hd, fun _ => rfl, fun _ => rfl,
      fun h => absurd h hd⟩

/-- C8: `getJSON` makes at most two attempts; it retries exactly once when
the first attempt fails at the network level; and when a response arrives
(any status, any decode outcome) no retry happens — a non-OK status or a
decode failure is returned immediately as the terminal result of the call. -/
theorem getJSONLoop_zero (f : ℕ → Attempt) (used : ℕ) (le : Option String) :
    getJSONLoop f 0 used le = (.error (le.getD ""), used) := rfl

theorem getJSONLoop_succ (f : ℕ → Attempt) (fuel used : ℕ) (le : Option String) :
    getJSONLoop f (fuel + 1) used le =
      (match f used with
       | .netErr m => getJSONLoop f fuel (used + 1) (some (renderFetchErr (.network m)))
       | .resp s b d => (respResult s b d, used + 1)) := rfl

theorem getJSON_retry_policy (f : ℕ → Attempt) :
    (getJSON f).2 ≤ 2 ∧
    (∀ m, f 0 = .netErr m → (getJSON f).2 = 2) ∧
    (∀ s b d, f 0 = .resp s b d →
      (getJSON f).2 = 1 ∧ (getJSON f).1 = respResult s b d) := by
  have e2 : getJSON f =
      (match f 0 with
       | .netErr m => getJSONLoop f 1 1 (some (renderFetchErr (.network m)))
       | .resp s b d => (respResult s b d, 1)) :=
    getJSONLoop_succ f 1 0 none
  rcases h0 : f 0 with m | ⟨s, b, d⟩
  · have e1 : getJSONLoop f 1 1 (some (renderFetchErr (.network m))) =
        (match f 1 with
         | .netErr m' => getJSONLoop f 0 2 (some (renderFetchErr (.network m')))
         | .resp s b d => (respResult s b d, 2)) :=
      getJSONLoop_succ f 0 1 _
    rcases h1 : f 1 with m' | ⟨s', b', d'⟩ <;>
      exact ⟨by simp [e2, h0, e1, h1, getJSONLoop_zero],
        fun _ _ => by simp [e2, h0, e1, h1, getJSONLoop_zero],
        fun s b d hres => Attempt.noConfusion hres⟩
  · exact ⟨by simp [e2, h0], fun m hres => Attempt.noConfusion hres,
      fun s' b' d' hres => by
        cases hres
        exact ⟨by simp [e2, h0], by simp [e2, h0]⟩⟩

/-- C8 witness: a network failure on the first attempt leads to exactly two
attempts, while an HTTP 404 response on the first attempt ends the call
after one attempt with the terminal API error. -/
theorem getJSON_retry_policy_witness :
    (getJSON (fun _ => .netErr "connection refused")).2 = 2 ∧
    (getJSON (fun _ => .resp 404 "not found" (.ok ()))).2 = 1 ∧
    (getJSON (fun _ => .resp 404 "not found" (.ok ()))).1 =
      .error "API error 404: not found" :=
  ⟨(getJSON_retry_policy _).2.1 "connection refused" rfl,
   ((getJSON_retry_policy _).2.2 404 "not found" (.ok ()) rfl).1,
   by
    rw [((getJSON_retry_policy (fun _ => .resp 404 "not found" (.ok ()))).2.2
      404 "not found" (.ok ()) rfl).2]
    rfl⟩

/-- Lemma: `fetchModel` marks a reading unavailable exactly on gateway errors and
incomplete responses. -/
theorem fetchModel_not_available (name : String) (r : Except FetchErr ModelCurrentRaw)
    (h : unavailableResp r) : (fetchModel name r).Available = false := by
  rcases r with e | c
  · rfl
  · rcases ht : c.Temp with _ | t
    · simp [fetchModel, ht]
    · rcases hh : c.Humidity with _ | hum
      · simp [fetchModel, ht, hh]
      · exfalso
        rcases h with h | h
        · rw [ht] at h; cases h
        · rw [hh] at h; cases h

/-- The aggregation fold of `FetchConsensus` skips unavailable readings. -/
theorem foldl_aggStep_skip (rs : List ModelReading)
    (h : ∀ r ∈ rs, r.Available = false) (s : AggState) :
    rs.foldl aggStep s = s := by
  induction rs generalizing s with
  | nil => rfl
  | cons r rest ih =>
    have hr : r.Available = false := h r (List.mem_cons_self _ _)
    have hrest : ∀ x ∈ rest, x.Available = false :=
      fun x hx => h x (List.mem_cons_of_mem _ hx)
    simp only [List.foldl_cons, aggStep, hr]
    simp only [Bool.false_eq_true, if_false]
    exact ih hrest s

/-- C2 counterexample: when every model fetch fails, `FetchConsensus`
returns early with every field at its zero value — the agreement label is
the empty string, not `"Low"` as the claim states. -/
theorem consensus_zero_agreement_not_low :
    (FetchConsensus (fun _ _ => .error (.network "connection refused"))).AvailCount = 0 ∧
    (FetchConsensus (fun _ _ => .error (.network "connection refused"))).Agreement ≠ "Low" := by
  constructor <;> decide

/-- C2 (amended): when every configured model's fetch fails or returns
incomplete data, `FetchConsensus` returns a summary with `AvgTemp`,
`AvgWind`, `AvgPressure`, `Spread` and `AgreePct` all 0, the `Models` list
of the configured length with every reading unavailable — but `Agreement`
is the empty string (the struct zero value), not `"Low"`: the zero-models
early return skips the labelling switch entirely. -/
theorem consensus_zero_models (fetch : String → String → Except FetchErr ModelCurrentRaw)
    (h : ∀ n p, unavailableResp (fetch n p)) :
    (FetchConsensus fetch).AvailCount = 0 ∧
    (FetchConsensus fetch).AvgTemp = 0 ∧
    (FetchConsensus fetch).AvgWind = 0 ∧
    (FetchConsensus fetch).AvgPressure = 0 ∧
    (FetchConsensus fetch).Spread = 0 ∧
    (FetchConsensus fetch).AgreePct = 0 ∧
    (FetchConsensus fetch).Agreement = "" ∧
    (FetchConsensus fetch).Models.length = forecastModels.length ∧
    (∀ r ∈ (FetchConsensus fetch).Models, r.Available = false) := by
  have hall : ∀ r ∈ forecastModels.map (fun m => fetchModel m.1 (fetch m.1 m.2)),
      r.Available = false := by
    intro r hr
    obtain ⟨m, _, rfl⟩ := List.mem_map.mp hr
    exact fetchModel_not_available _ _ (h m.1 m.2)
  have hfold :
      (forecastModels.map (fun m => fetchModel m.1 (fetch m.1 m.2))).foldl aggStep {} =
        ({} : AggState) :=
    foldl_aggStep_skip _ hall _
  simp only [FetchConsensus, consensusStats, hfold]
  refine ⟨rfl, rfl, rfl, rfl, rfl, rfl, rfl, by simp, hall⟩

/-- C2 witness: the amended statement at the all-fetches-fail oracle. -/
theorem consensus_zero_models_witness :
    (FetchConsensus (fun _ _ => .error (.network "no route to host"))).Agreement = "" ∧
    (FetchConsensus (fun _ _ => .error (.network "no route to host"))).Models.length =
      forecastModels.length ∧
    (FetchConsensus (fun _ _ => .error (.network "no route to host"))).AvailCount = 0 := by
  have h := consensus_zero_models (fun _ _ => .error (.network "no route to host"))
    (fun _ _ => trivial)
  exact ⟨h.2.2.2.2.2.2.1, h.2.2.2.2.2.2.2.1, h.1⟩


/-- Characterisation of the daily loop: starting at index `i` with the
remaining dates `ts`, entries are emitted for indices up to
`stop = min (i + |ts|) (min |WeatherCode| |TempMax|)`; the loop completes
without a panic iff it emits nothing (`stop ≤ i`) or both unchecked arrays
cover the emitted range, and on success it returns `stop - i` entries. -/
theorem buildForecastLoop_spec (d : DailyRaw) (ts : List String) (i : ℕ) :
    ((buildForecastLoop d ts i).isSome ↔
      (min (i + ts.length) (min d.WeatherCode.length d.TempMax.length) ≤ i ∨
       (min (i + ts.length) (min d.WeatherCode.length d.TempMax.length) ≤ d.TempMin.length ∧
        min (i + ts.length) (min d.WeatherCode.length d.TempMax.length) ≤ d.WindMax.length))) ∧
    (∀ l, buildForecastLoop d ts i = some l →
      l.length = min (i + ts.length) (min d.WeatherCode.length d.TempMax.length) - i) := by
  induction ts generalizing i with
  | nil =>
    constructor
    · simp only [buildForecastLoop, Option.isSome_some, true_iff, List.length_nil]
      left; omega
    · intro l hl
      cases hl
      simp only [List.length_nil]
      omega
  | cons date rest ih =>
    by_cases hbreak : i ≥ d.WeatherCode.length ∨ i ≥ d.TempMax.length
    · have hred : buildForecastLoop d (date :: rest) i = some [] := by
        simp only [buildForecastLoop, if_pos hbreak]
      constructor
      · rw [hred]
        simp only [Option.isSome_some, true_iff, List.length_cons]
        left; omega
      · intro l hl
        rw [hred] at hl
        cases hl
        simp only [List.length_nil, List.length_cons]
        omega
    · push_neg at hbreak
      obtain ⟨hwc, htx⟩ := hbreak
      have hcond : ¬ (i ≥ d.WeatherCode.length ∨ i ≥ d.TempMax.length) := by omega
      rcases htm : d.TempMin.get? i with _ | tmin
      · have hlen : d.TempMin.length ≤ i := List.get?_eq_none.mp htm
        have hred : buildForecastLoop d (date :: rest) i = none := by
          simp only [buildForecastLoop, if_neg hcond, htm]
        constructor
        · rw [hred]
          simp only [Option.isSome_none, Bool.false_eq_true, false_iff, List.length_cons]
          rintro (hle | ⟨h1, h2⟩) <;> omega
        · intro l hl
          rw [hred] at hl
          cases hl
      · rcases hwm : d.WindMax.get? i with _ | wmax
        · have hlen : d.WindMax.length ≤ i := List.get?_eq_none.mp hwm
          have hred : buildForecastLoop d (date :: rest) i = none := by
            simp only [buildForecastLoop, if_neg hcond, htm, hwm]
          constructor
          · rw [hred]
            simp only [Option.isSome_none, Bool.false_eq_true, false_iff, List.length_cons]
            rintro (hle | ⟨h1, h2⟩) <;> omega
          · intro l hl
            rw [hred] at hl
            cases hl
        · have htmlt : i < d.TempMin.length := (List.get?_eq_some.mp htm).1
          have hwmlt : i < d.WindMax.length := (List.get?_eq_some.mp hwm).1
          have hrec := ih (i + 1)
          have hred : buildForecastLoop d (date :: rest) i =
              (buildForecastLoop d rest (i + 1)).map
                (fun tail =>
                  { Date := date
                    Description := WMODescription (d.WeatherCode.getD i 0)
                    Icon := WMOIconClass (d.WeatherCode.getD i 0)
                    TempMax := d.TempMax.getD i 0
                    TempMin := tmin
                    WindMax := wmax
                    PrecipProb :=
                      if i < d.PrecipProbMax.length then d.PrecipProbMax.getD i 0
                      else 0 } :: tail) := by
            simp only [buildForecastLoop, if_neg hcond, htm, hwm]
          constructor
          · rw [hred]
            simp only [Option.isSome_map']
            rw [hrec.1]
            simp only [List.length_cons]
            omega
          · intro l hl
            rw [hred] at hl
            simp only [Option.map_eq_some'] at hl
            obtain ⟨tail, htail, rfl⟩ := hl
            have hlt := hrec.2 tail htail
            simp only [List.length_cons, hlt]
            omega

/-- C1 counterexample: the daily loop checks bounds only against
`WeatherCode` and `TempMax`; with a one-day time/code/max block but empty
`TempMin` and `WindMax` arrays, emitting index 0 reads `TempMin[0]` out of
bounds (a Go panic, modelled by `none`), so construction does not stop
early and silently. -/
theorem buildForecast_oob_on_short_tempMin :
    buildForecast
      { Time := ["2025-01-01"], WeatherCode := [1], TempMax := [5],
        TempMin := [], WindMax := [], PrecipProbMax := [],
        Sunrise := [], Sunset := [] } = none := rfl

/-- C1 (amended): the daily loop stops early and silently only when
`WeatherCode` or `TempMax` runs out, and a missing `PrecipProbMax` entry
defaults to 0; so every emitted index is valid into `Time`, `WeatherCode`
and `TempMax`, but `TempMin[i]` and `WindMax[i]` are read without bounds
checks: construction succeeds (with exactly
`min |Time| (min |WeatherCode| |TempMax|)` entries) precisely when
`TempMin` and `WindMax` both cover that emitted range, and panics
otherwise. -/
theorem buildForecast_alignment (d : DailyRaw) :
    ((buildForecast d).isSome ↔
      (min d.Time.length (min d.WeatherCode.length d.TempMax.length) ≤ d.TempMin.length ∧
       min d.Time.length (min d.WeatherCode.length d.TempMax.length) ≤ d.WindMax.length)) ∧
    (∀ l, buildForecast d = some l →
      l.length = min d.Time.length (min d.WeatherCode.length d.TempMax.length)) := by
  have h := buildForecastLoop_spec d d.Time 0
  simp only [Nat.zero_add, Nat.sub_zero] at h
  constructor
  · rw [buildForecast, h.1]
    constructor
    · rintro (h0 | hb)
      · constructor <;> omega
      · exact hb
    · intro hb
      right; exact hb
  · intro l hl
    exact h.2 l hl

/-- C1 witness: with all five field arrays covering one day, the build
succeeds and emits exactly one entry. -/
theorem buildForecast_alignment_witness :
    (buildForecast
      { Time := ["2025-01-01"], WeatherCode := [0], TempMax := [5],
        TempMin := [1], WindMax := [3], PrecipProbMax := [],
        Sunrise := [], Sunset := [] } =
      some [{ Date := "2025-01-01", Description := "Clear sky",
              Icon := "wi-day-sunny", TempMax := 5, TempMin := 1,
              WindMax := 3, PrecipProb := 0 }]) ∧
    ([({ Date := "2025-01-01", Description := "Clear sky",
         Icon := "wi-day-sunny", TempMax := 5, TempMin := 1,
         WindMax := 3, PrecipProb := 0 } : ForecastDay)]).length =
      min ((["2025-01-01"] : List String).length)
        (min (([0] : List ℤ).length) (([5] : List ℚ).length)) :=
  ⟨rfl,
   (buildForecast_alignment
     { Time := ["2025-01-01"], WeatherCode := [0], TempMax := [5],
       TempMin := [1], WindMax := [3], PrecipProbMax := [],
       Sunrise := [], Sunset := [] }).2 _ rfl⟩


/-- The hourly loop never accumulates past 24 points: starting with `count`
points already taken, at most `24 - count` more are emitted. -/
theorem parseHourlyLoop_length (h : HourlyRaw) (nw : ℤ) (ts : List (Option ℤ))
    (i c : ℕ) : (parseHourlyLoop h nw ts i c).length ≤ 24 - c := by
  induction ts generalizing i c with
  | nil => simp [parseHourlyLoop]
  | cons o rest ih =>
    rcases o with _ | t
    · simpa [parseHourlyLoop] using ih (i + 1) c
    · by_cases hlt : t < nw
      · simpa [parseHourlyLoop, hlt] using ih (i + 1) c
      · by_cases hfull : c ≥ 24
        · simp [parseHourlyLoop, hlt, hfull]
        · have := ih (i + 1) (c + 1)
          simp only [parseHourlyLoop, if_neg hlt, if_neg hfull, List.length_cons]
          omega

/-- Every point the hourly loop emits has a time at or after `nw`. -/
theorem parseHourlyLoop_time_ge (h : HourlyRaw) (nw : ℤ) (ts : List (Option ℤ))
    (i c : ℕ) (p : HourlyPoint) (hp : p ∈ parseHourlyLoop h nw ts i c) :
    nw ≤ p.Time := by
  induction ts generalizing i c with
  | nil => cases hp
  | cons o rest ih =>
    rcases o with _ | t
    · exact ih (i + 1) c (by simpa [parseHourlyLoop] using hp)
    · by_cases hlt : t < nw
      · exact ih (i + 1) c (by simpa [parseHourlyLoop, hlt] using hp)
      · by_cases hfull : c ≥ 24
        · simp [parseHourlyLoop, hlt, hfull] at hp
        · simp only [parseHourlyLoop, if_neg hlt, if_neg hfull, List.mem_cons] at hp
          rcases hp with rfl | hp
          · simpa using not_lt.mp hlt
          · exact ih (i + 1) (c + 1) hp

/-- The emitted times form a sublist of the parseable input times. -/
theorem parseHourlyLoop_times_sublist (h : HourlyRaw) (nw : ℤ)
    (ts : List (Option ℤ)) (i c : ℕ) :
    ((parseHourlyLoop h nw ts i c).map (·.Time)).Sublist (ts.filterMap id) := by
  induction ts generalizing i c with
  | nil => simp [parseHourlyLoop]
  | cons o rest ih =>
    rcases o with _ | t
    · simpa [parseHourlyLoop, List.filterMap_cons_none] using ih (i + 1) c
    · rw [show (((some t) :: rest).filterMap id) = t :: rest.filterMap id by
        simp [List.filterMap_cons_some]]
      by_cases hlt : t < nw
      · exact List.Sublist.cons t (by simpa [parseHourlyLoop, hlt] using ih (i + 1) c)
      · by_cases hfull : c ≥ 24
        · simp [parseHourlyLoop, hlt, hfull]
        · simp only [parseHourlyLoop, if_neg hlt, if_neg hfull, List.map_cons]
          exact List.Sublist.cons₂ t (ih (i + 1) (c + 1))

/-- C6 counterexample: the aggregator does not sort; when the upstream
hourly time array is out of order, the emitted sequence is out of order
too, so the claimed unconditional monotonicity fails. -/
theorem parseHourly_unsorted_input :
    ¬ List.Pairwise (· ≤ ·)
      ((parseHourly
        { Time := [some 120, some 60], Temperature := [1, 2],
          PrecipProb := [0, 0], WeatherCode := [0, 0], WindSpeed := [0, 0] }
        (some 0)).map (·.Time)) := by
  decide

/-- C6 (amended): the hourly sequence has at most 24 entries and every entry
is at or after the current time; it is non-decreasing in time provided the
source's (parseable) hourly times are non-decreasing — the aggregator
filters and truncates but never reorders, so an out-of-order upstream array
yields an out-of-order sequence. -/
theorem parseHourly_props (h : HourlyRaw) (now : Option ℤ) :
    (parseHourly h now).length ≤ 24 ∧
    (∀ n, now = some n → ∀ p ∈ parseHourly h now, n ≤ p.Time) ∧
    (List.Pairwise (· ≤ ·) (h.Time.filterMap id) →
      List.Pairwise (· ≤ ·) ((parseHourly h now).map (·.Time))) := by
  rcases now with _ | n
  · refine ⟨by simp [parseHourly], ?_, fun _ => by simp [parseHourly]⟩
    intro n hn
    cases hn
  · refine ⟨?_, ?_, ?_⟩
    · have := parseHourlyLoop_length h n h.Time 0 0
      simpa [parseHourly] using this
    · intro n' hn' p hp
      cases hn'
      exact parseHourlyLoop_time_ge h n h.Time 0 0 p (by simpa [parseHourly] using hp)
    · intro hsorted
      exact List.Pairwise.sublist (parseHourlyLoop_times_sublist h n h.Time 0 0) hsorted

/-- C6 witness: on a sorted two-hour block the amended statement gives a
bounded, filtered, sorted sequence. -/
theorem parseHourly_props_witness :
    (parseHourly
      { Time := [some 60, some 120], Temperature := [1, 2],
        PrecipProb := [0, 0], WeatherCode := [0, 0], WindSpeed := [0, 0] }
      (some 90)).length ≤ 24 ∧
    List.Pairwise (· ≤ ·)
      ((parseHourly
        { Time := [some 60, some 120], Temperature := [1, 2],
          PrecipProb := [0, 0], WeatherCode := [0, 0], WindSpeed := [0, 0] }
        (some 90)).map (·.Time)) :=
  ⟨(parseHourly_props
      { Time := [some 60, some 120], Temperature := [1, 2],
        PrecipProb := [0, 0], WeatherCode := [0, 0], WindSpeed := [0, 0] }
      (some 90)).1,
   (parseHourly_props
      { Time := [some 60, some 120], Temperature := [1, 2],
        PrecipProb := [0, 0], WeatherCode := [0, 0], WindSpeed := [0, 0] }
      (some 90)).2.2 (by decide)⟩


/-- C10 witness: at 90° the compass index is in bounds. -/
theorem windCompass_in_bounds_witness : (WindCompass 90).isSome = true := by
  obtain ⟨s, _, he⟩ := windCompass_in_bounds 90 (by norm_num)
  rw [he]
  rfl

/-- C7 witness: midday sits at the clamped formula value, a pre-sunrise
time clamps to 0, and a post-sunset time clamps to 100. -/
theorem sunPosition_clamped_witness :
    (0 ≤ (buildSunBar 720 360 1080).SunPositionPct ∧
      (buildSunBar 720 360 1080).SunPositionPct ≤ 100) ∧
    (buildSunBar 720 360 1080).SunPositionPct =
      max 0 (min 100 (((720 - 360 : ℤ) : ℚ) / ((1080 - 360 : ℤ) : ℚ) * 100)) ∧
    (buildSunBar 100 360 1080).SunPositionPct = 0 ∧
    (buildSunBar 2000 360 1080).SunPositionPct = 100 :=
  ⟨(sunPosition_clamped 720 360 1080).1,
   (sunPosition_clamped 720 360 1080).2.1 (by norm_num),
   (sunPosition_clamped 100 360 1080).2.2.2.1 (by norm_num),
   (sunPosition_clamped 2000 360 1080).2.2.2.2 (by norm_num) (by norm_num)⟩


theorem goRound_of_nonneg {q : ℚ} (h : 0 ≤ q) : goRound q = ⌊q + 1/2⌋ := by
  rw [goRound, if_neg (not_lt.mpr h), goTrunc_of_nonneg (by linarith)]

theorem goRound_intCast (z : ℤ) : goRound (z : ℚ) = z := by
  rcases lt_or_le (z : ℚ) 0 with hz | hz
  · rw [goRound, if_pos hz, goTrunc_of_nonneg (by linarith)]
    rw [show -(z : ℚ) + 1/2 = ((-z : ℤ) : ℚ) + 1/2 by push_cast; ring]
    rw [Int.floor_int_add]
    norm_num
  · rw [goRound_of_nonneg hz, Int.floor_int_add]
    norm_num

/-- Lemma: `round1` is the identity on values that are already integer tenths, so
rounding a difference of two rounded values changes nothing. -/
theorem round1_sub_round1 (a b : ℚ) :
    round1 (round1 a - round1 b) = round1 a - round1 b := by
  rw [round1, round1, round1]
  rw [show ((goRound (a * 10) : ℚ) / 10 - (goRound (b * 10) : ℚ) / 10) * 10 =
      ((goRound (a * 10) - goRound (b * 10) : ℤ) : ℚ) by push_cast; ring]
  rw [goRound_intCast]
  push_cast
  ring

/-- The Go update `if t < m then t else m` is `min m t`. -/
theorem ite_lt_eq_min (a b : ℚ) : (if a < b then a else b) = min b a := by
  rcases lt_or_le a b with h | h
  · rw [if_pos h, min_eq_right (le_of_lt h)]
  · rw [if_neg (not_lt.mpr h), min_eq_left h]

/-- The Go update `if t > m then t else m` is `max m t`. -/
theorem ite_gt_eq_max (a b : ℚ) : (if a > b then a else b) = max b a := by
  rcases lt_or_le b a with h | h
  · rw [if_pos h, max_eq_right (le_of_lt h)]
  · rw [if_neg (not_lt.mpr h), max_eq_left h]

/-- The consensus fold counts exactly the available readings. -/
theorem foldl_agg_count (rs : List ModelReading) (s : AggState) :
    (rs.foldl aggStep s).count = s.count + (availTemps rs).length := by
  induction rs generalizing s with
  | nil => simp [availTemps]
  | cons r rest ih =>
    by_cases hr : r.Available
    · simp only [List.foldl_cons, aggStep, hr, if_true, ih, availTemps,
        List.filter_cons, List.map_cons, List.length_cons]
      simp [availTemps] at ih ⊢
      omega
    · simp only [List.foldl_cons, aggStep, hr, if_false]
      simp only [Bool.not_eq_true] at hr
      simp [ih, availTemps, List.filter_cons, hr]

/-- The consensus fold computes the running minimum of available
temperatures. -/
theorem foldl_agg_min (rs : List ModelReading) (s : AggState) :
    (rs.foldl aggStep s).minTemp = (availTemps rs).foldl min s.minTemp := by
  induction rs generalizing s with
  | nil => simp [availTemps]
  | cons r rest ih =>
    by_cases hr : r.Available
    · simp only [List.foldl_cons, aggStep, hr, if_true, ih]
      have : (availTemps (r :: rest)) = r.Temp :: availTemps rest := by
        simp [availTemps, List.filter_cons, hr]
      rw [this, List.foldl_cons, ite_lt_eq_min]
    · simp only [List.foldl_cons, aggStep, hr, Bool.false_eq_true, if_false, ih]
      simp only [Bool.not_eq_true] at hr
      have : (availTemps (r :: rest)) = availTemps rest := by
        simp [availTemps, List.filter_cons, hr]
      rw [this]

/-- The consensus fold computes the running maximum of available
temperatures. -/
theorem foldl_agg_max (rs : List ModelReading) (s : AggState) :
    (rs.foldl aggStep s).maxTemp = (availTemps rs).foldl max s.maxTemp := by
  induction rs generalizing s with
  | nil => simp [availTemps]
  | cons r rest ih =>
    by_cases hr : r.Available
    · simp only [List.foldl_cons, aggStep, hr, if_true, ih]
      have : (availTemps (r :: rest)) = r.Temp :: availTemps rest := by
        simp [availTemps, List.filter_cons, hr]
      rw [this, List.foldl_cons, ite_gt_eq_max]
    · simp only [List.foldl_cons, aggStep, hr, Bool.false_eq_true, if_false, ih]
      simp only [Bool.not_eq_true] at hr
      have : (availTemps (r :: rest)) = availTemps rest := by
        simp [availTemps, List.filter_cons, hr]
      rw [this]

/-- Folding `min` from a sentinel at least as large as the head gives the
list minimum. -/
theorem foldl_min_sentinel (t : ℚ) (ts : List ℚ) (a : ℚ) (h : t ≤ a) :
    (t :: ts).foldl min a = listMin (t :: ts) := by
  rw [List.foldl_cons, min_eq_right h, listMin]

/-- Folding `max` from a sentinel at most as large as the head gives the
list maximum. -/
theorem foldl_max_sentinel (t : ℚ) (ts : List ℚ) (a : ℚ) (h : a ≤ t) :
    (t :: ts).foldl max a = listMax (t :: ts) := by
  rw [List.foldl_cons, max_eq_right h, listMax]


/-- C4 (amended): over the available readings (all finite as doubles), the
agreement percentage is `clamp(0,100, 100 − int(spread×12))` where the Go
conversion `int(·)` truncates the product toward zero and
`spread = round1(max) − round1(min)` over the available temperatures (the
upper clamp is vacuous since the spread is nonnegative); the label follows
the High ≥ 80 / Moderate ≥ 50 / Low buckets of the resulting integer. -/
theorem consensus_agreement_formula (rs : List ModelReading)
    (havail : 0 < (consensusStats rs).AvailCount)
    (hbound : ∀ r ∈ rs, r.Available = true → |r.Temp| ≤ maxFloat64) :
    (consensusStats rs).AgreePct =
      max 0 (100 - goTrunc ((round1 (listMax (availTemps rs)) -
        round1 (listMin (availTemps rs))) * 12)) ∧
    (consensusStats rs).Agreement =
      (if (consensusStats rs).AgreePct ≥ 80 then "High"
       else if (consensusStats rs).AgreePct ≥ 50 then "Moderate"
       else "Low") := by
  by_cases hc : (rs.foldl aggStep {}).count = 0
  · exfalso
    have h0 : (consensusStats rs).AvailCount = 0 := by
      simp only [consensusStats, hc, if_pos]
    omega
  · have hne : availTemps rs ≠ [] := by
      intro h
      have hcnt := foldl_agg_count rs {}
      rw [h] at hcnt
      simp at hcnt
      exact hc hcnt
    obtain ⟨t, ts', ht⟩ := List.exists_cons_of_ne_nil hne
    have htmem : t ∈ availTemps rs := by
      rw [ht]; exact List.mem_cons_self _ _
    have hbt : |t| ≤ maxFloat64 := by
      simp only [availTemps, List.mem_map, List.mem_filter] at htmem
      obtain ⟨r, ⟨hrmem, hravail⟩, rfl⟩ := htmem
      exact hbound r hrmem (by simpa using hravail)
    have hminsent : (({} : AggState)).minTemp = maxFloat64 := rfl
    have hmaxsent : (({} : AggState)).maxTemp = -maxFloat64 := rfl
    have hmin : (rs.foldl aggStep {}).minTemp = listMin (availTemps rs) := by
      rw [foldl_agg_min, hminsent, ht]
      exact foldl_min_sentinel t ts' _ (abs_le.mp hbt).2
    have hmax : (rs.foldl aggStep {}).maxTemp = listMax (availTemps rs) := by
      rw [foldl_agg_max, hmaxsent, ht]
      exact foldl_max_sentinel t ts' _ (abs_le.mp hbt).1
    constructor
    · simp only [consensusStats, if_neg hc, hmin, hmax, round1_sub_round1]
      rcases le_or_lt 0 (100 - goTrunc ((round1 (listMax (availTemps rs)) -
          round1 (listMin (availTemps rs))) * 12)) with hp | hp
      · rw [if_neg (not_lt.mpr hp), max_eq_right hp]
      · rw [if_pos hp, max_eq_left (le_of_lt hp)]
    · simp only [consensusStats, if_neg hc]


theorem round1_eval (q : ℚ) (z : ℤ) (h1 : 0 ≤ q * 10) (h2 : ⌊q * 10 + 1/2⌋ = z) :
    round1 q = (z : ℚ) / 10 := by
  rw [round1, goRound_of_nonneg h1, h2]

/-- C4 counterexample: with available readings 10.0 and 10.1 the spread is
0.1, the claim's real-valued formula gives `clamp(0,100, 100 − 1.2) = 98.8`,
but the code computes `100 − int(0.1×12) = 100 − 1 = 99`: the conversion to
`int` truncates, so the claimed equality fails. -/
theorem consensus_agreepct_not_linear :
    0 < (consensusStats
      [{ Model := "A", Temp := 10, Humidity := 50, Available := true },
       { Model := "B", Temp := 101/10, Humidity := 50, Available := true }]).AvailCount ∧
    ((consensusStats
      [{ Model := "A", Temp := 10, Humidity := 50, Available := true },
       { Model := "B", Temp := 101/10, Humidity := 50, Available := true }]).AgreePct : ℚ) ≠
      max 0 (min 100 (100 - (consensusStats
        [{ Model := "A", Temp := 10, Humidity := 50, Available := true },
         { Model := "B", Temp := 101/10, Humidity := 50, Available := true }]).Spread * 12)) := by
  have hs : ([{ Model := "A", Temp := 10, Humidity := 50, Available := true },
      { Model := "B", Temp := 101/10, Humidity := 50, Available := true }] :
        List ModelReading).foldl aggStep {} =
      { sumTemp := 201/10, sumWind := 0, sumPressure := 0, sumHumidity := 100,
        count := 2, minTemp := 10, maxTemp := 101/10 } := by
    simp only [List.foldl_cons, List.foldl_nil, aggStep]
    norm_num [maxFloat64, AggState.mk.injEq]
  have h1 : round1 (10 : ℚ) = 10 := by
    rw [round1_eval (10 : ℚ) 100 (by norm_num) (by norm_num)]; norm_num
  have h2 : round1 (101/10 : ℚ) = 101/10 := by
    rw [round1_eval _ 101 (by norm_num) (by norm_num)]; norm_num
  have h3 : round1 ((1 : ℚ)/10) = 1/10 := by
    rw [round1_eval _ 1 (by norm_num) (by norm_num)]; norm_num
  have h4 : goTrunc ((6 : ℚ)/5) = 1 := by
    rw [goTrunc_of_nonneg (by norm_num)]; norm_num
  constructor
  · simp only [consensusStats, hs]
    norm_num
  · simp only [consensusStats, hs]
    norm_num [h1, h2, h3, h4]


/-- C4 witness: the claim's own concrete example — readings 10.0 and 12.0
give min 10, max 12, spread 2, average 11, agreement 76% and the
"Moderate" label (here the truncated and the real-valued formula agree). -/
theorem consensus_agreement_formula_witness :
    (consensusStats
      [{ Model := "A", Temp := 10, Humidity := 50, Available := true },
       { Model := "B", Temp := 12, Humidity := 50, Available := true }]).MinTemp = 10 ∧
    (consensusStats
      [{ Model := "A", Temp := 10, Humidity := 50, Available := true },
       { Model := "B", Temp := 12, Humidity := 50, Available := true }]).MaxTemp = 12 ∧
    (consensusStats
      [{ Model := "A", Temp := 10, Humidity := 50, Available := true },
       { Model := "B", Temp := 12, Humidity := 50, Available := true }]).Spread = 2 ∧
    (consensusStats
      [{ Model := "A", Temp := 10, Humidity := 50, Available := true },
       { Model := "B", Temp := 12, Humidity := 50, Available := true }]).AvgTemp = 11 ∧
    (consensusStats
      [{ Model := "A", Temp := 10, Humidity := 50, Available := true },
       { Model := "B", Temp := 12, Humidity := 50, Available := true }]).AgreePct = 76 ∧
    (consensusStats
      [{ Model := "A", Temp := 10, Humidity := 50, Available := true },
       { Model := "B", Temp := 12, Humidity := 50, Available := true }]).Agreement =
      "Moderate" := by
  have hs : ([{ Model := "A", Temp := 10, Humidity := 50, Available := true },
      { Model := "B", Temp := 12, Humidity := 50, Available := true }] :
        List ModelReading).foldl aggStep {} =
      { sumTemp := 22, sumWind := 0, sumPressure := 0, sumHumidity := 100,
        count := 2, minTemp := 10, maxTemp := 12 } := by
    simp only [List.foldl_cons, List.foldl_nil, aggStep]
    norm_num [maxFloat64, AggState.mk.injEq]
  have h10 : round1 (10 : ℚ) = 10 := by
    rw [round1_eval (10 : ℚ) 100 (by norm_num) (by norm_num)]; norm_num
  have h12 : round1 (12 : ℚ) = 12 := by
    rw [round1_eval (12 : ℚ) 120 (by norm_num) (by norm_num)]; norm_num
  have hd2 : round1 (2 : ℚ) = 2 := by
    rw [round1_eval (2 : ℚ) 20 (by norm_num) (by norm_num)]; norm_num
  have h11 : round1 (11 : ℚ) = 11 := by
    rw [round1_eval (11 : ℚ) 110 (by norm_num) (by norm_num)]; norm_num
  have h24 : goTrunc (24 : ℚ) = 24 := by
    rw [goTrunc_of_nonneg (by norm_num)]; norm_num
  have hat : availTemps
      [{ Model := "A", Temp := 10, Humidity := 50, Available := true },
       { Model := "B", Temp := 12, Humidity := 50, Available := true }] =
      [(10 : ℚ), 12] := by
    simp [availTemps]
  have hlmax : listMax [(10 : ℚ), 12] = 12 := by
    simp [listMax]
    norm_num
  have hlmin : listMin [(10 : ℚ), 12] = 10 := by
    simp [listMin]
    norm_num
  have havail : 0 < (consensusStats
      [{ Model := "A", Temp := 10, Humidity := 50, Available := true },
       { Model := "B", Temp := 12, Humidity := 50, Available := true }]).AvailCount := by
    simp only [consensusStats, hs]
    norm_num
  have hbound : ∀ r ∈ ([{ Model := "A", Temp := 10, Humidity := 50, Available := true },
      { Model := "B", Temp := 12, Humidity := 50, Available := true }] :
        List ModelReading), r.Available = true → |r.Temp| ≤ maxFloat64 := by
    intro r hr _
    rcases List.mem_cons.mp hr with rfl | hr
    · norm_num [maxFloat64]
    · rcases List.mem_cons.mp hr with rfl | hr
      · norm_num [maxFloat64]
      · cases hr
  have hthm := consensus_agreement_formula _ havail hbound
  have hpct : (consensusStats
      [{ Model := "A", Temp := 10, Humidity := 50, Available := true },
       { Model := "B", Temp := 12, Humidity := 50, Available := true }]).AgreePct = 76 := by
    rw [hthm.1, hat, hlmax, hlmin, h10, h12]
    norm_num [h24]
  refine ⟨?_, ?_, ?_, ?_, hpct, ?_⟩
  · simp only [consensusStats, hs]
    norm_num [h10]
  · simp only [consensusStats, hs]
    norm_num [h12]
  · simp only [consensusStats, hs]
    norm_num [h10, h12, hd2]
  · simp only [consensusStats, hs]
    norm_num [h11]
  · rw [hthm.2, hpct]
    norm_num


/-- The `Models` field of the statistics is always the readings list. -/
theorem consensusStats_models (rs : List ModelReading) :
    (consensusStats rs).Models = rs := by
  simp only [consensusStats]
  split <;> rfl

/-- Lemma: `fetchModel` always stamps the model's display name on its reading. -/
theorem fetchModel_model (n : String) (r : Except FetchErr ModelCurrentRaw) :
    (fetchModel n r).Model = n := by
  rcases r with e | c
  · rfl
  · rcases ht : c.Temp with _ | t <;> rcases hh : c.Humidity with _ | hum <;>
      simp [fetchModel, ht, hh]

/-- The gateway's formatted error strings are never empty. -/
theorem renderFetchErr_ne_empty (e : FetchErr) : renderFetchErr e ≠ "" := by
  cases e with
  | network m =>
    intro h
    have hlen := congrArg String.length h
    simp [String.length_append, renderFetchErr] at hlen
    exact absurd hlen.1 (by decide)
  | apiStatus code body =>
    intro h
    have hlen := congrArg String.length h
    simp [String.length_append, renderFetchErr] at hlen
    exact absurd hlen.1.1.1 (by decide)
  | decodeFail m =>
    intro h
    have hlen := congrArg String.length h
    simp [String.length_append, renderFetchErr] at hlen
    exact absurd hlen.1 (by decide)

/-- An unavailable reading always carries a non-empty diagnostic. -/
theorem fetchModel_err_nonempty (n : String) (r : Except FetchErr ModelCurrentRaw)
    (h : (fetchModel n r).Available = false) : (fetchModel n r).Err ≠ "" := by
  rcases r with e | c
  · simpa [fetchModel] using renderFetchErr_ne_empty e
  · rcases ht : c.Temp with _ | t <;> rcases hh : c.Humidity with _ | hum <;>
      simp [fetchModel, ht, hh] at h ⊢

/-- C9: `FetchConsensus` is total and never nil: the summary's `Models` list
has exactly one entry per configured model, in configuration order, each
stamped with that model's name; every unavailable reading carries a
non-empty diagnostic; and the report assembled by `GetWeather` always
carries a (non-nil) consensus summary. -/
theorem fetchConsensus_total (fetch : String → String → Except FetchErr ModelCurrentRaw) :
    (FetchConsensus fetch).Models.length = forecastModels.length ∧
    (FetchConsensus fetch).Models.map (·.Model) = forecastModels.map (·.1) ∧
    (∀ r ∈ (FetchConsensus fetch).Models, r.Available = false → r.Err ≠ "") ∧
    (∀ loc units raw buildOutfit info,
      assembleReport loc units raw fetch buildOutfit = some info →
      info.Consensus = some (FetchConsensus fetch)) := by
  refine ⟨?_, ?_, ?_, ?_⟩
  · rw [FetchConsensus, consensusStats_models]
    exact List.length_map _ _
  · rw [FetchConsensus, consensusStats_models]
    rw [List.map_map]
    exact List.map_congr_left fun m _ => fetchModel_model _ _
  · intro r hr hav
    rw [FetchConsensus, consensusStats_models] at hr
    obtain ⟨m, _, rfl⟩ := List.mem_map.mp hr
    exact fetchModel_err_nonempty _ _ hav
  · intro loc units raw buildOutfit info hinfo
    rcases hbf : buildForecast raw.Daily with _ | forecast
    · rw [assembleReport, hbf] at hinfo
      cases hinfo
    · rw [assembleReport, hbf] at hinfo
      simp only [Option.some_inj] at hinfo
      subst hinfo
      rfl

/-- C9 witness: with every model fetch failing and an empty raw block, the
assembled report still carries a consensus summary with four named,
unavailable models. -/
theorem fetchConsensus_total_witness :
    (FetchConsensus (fun _ _ => .error (.network "dns failure"))).Models.length =
      forecastModels.length ∧
    ((assembleReport {} "metric" {} (fun _ _ => .error (.network "dns failure"))
        (fun _ => {})).map (·.Consensus)) =
      some (some (FetchConsensus (fun _ _ => .error (.network "dns failure")))) := by
  have h := fetchConsensus_total (fun _ _ => .error (.network "dns failure"))
  refine ⟨h.1, ?_⟩
  rcases hres : assembleReport {} "metric" {} (fun _ _ => .error (.network "dns failure"))
      (fun _ => {}) with _ | info
  · exact absurd hres (by rw [show (assembleReport {} "metric" {}
      (fun _ _ => .error (.network "dns failure")) (fun _ => {})) =
        assembleReport {} "metric" {} (fun _ _ => .error (.network "dns failure"))
          (fun _ => {}) from rfl]; simp [assembleReport, buildForecast, buildForecastLoop])
  · rw [Option.map_some']
    rw [h.2.2.2 {} "metric" {} (fun _ => {}) info hres]


/-- Running the eviction scan from a seeded accumulator yields an entry no
newer than the seed and than anything in the list, drawn from the seed or
the list. -/
theorem scanStep_fold_spec (st : CacheState) (k0 : String) (t0 : ℤ) :
    ∃ k1 t1, st.foldl scanStep (some (k0, t0)) = some (k1, t1) ∧
      t1 ≤ t0 ∧ (∀ p ∈ st, t1 ≤ p.2.createdAt) ∧
      ((k1 = k0 ∧ t1 = t0) ∨ ∃ e, (k1, e) ∈ st ∧ e.createdAt = t1) := by
  induction st generalizing k0 t0 with
  | nil =>
    exact ⟨k0, t0, rfl, le_refl _, by simp, Or.inl ⟨rfl, rfl⟩⟩
  | cons p rest ih =>
    by_cases hlt : p.2.createdAt < t0
    · obtain ⟨k1, t1, hfold, hle, hbound, horig⟩ := ih p.1 p.2.createdAt
      refine ⟨k1, t1, ?_, ?_, ?_, ?_⟩
      · rw [List.foldl_cons, scanStep, if_pos hlt]
        exact hfold
      · exact le_trans hle (le_of_lt hlt)
      · intro q hq
        rcases List.mem_cons.mp hq with rfl | hq
        · exact hle
        · exact hbound q hq
      · rcases horig with ⟨rfl, rfl⟩ | ⟨e, hmem, he⟩
        · exact Or.inr ⟨p.2, List.mem_cons_self _ _, rfl⟩
        · exact Or.inr ⟨e, List.mem_cons_of_mem _ hmem, he⟩
    · obtain ⟨k1, t1, hfold, hle, hbound, horig⟩ := ih k0 t0
      refine ⟨k1, t1, ?_, hle, ?_, ?_⟩
      · rw [List.foldl_cons, scanStep, if_neg hlt]
        exact hfold
      · intro q hq
        rcases List.mem_cons.mp hq with rfl | hq
        · exact le_trans hle (not_lt.mp hlt)
        · exact hbound q hq
      · rcases horig with ⟨rfl, rfl⟩ | ⟨e, hmem, he⟩
        · exact Or.inl ⟨rfl, rfl⟩
        · exact Or.inr ⟨e, List.mem_cons_of_mem _ hmem, he⟩

/-- On a nonempty cache the eviction scan returns a present entry with
minimal creation time. -/
theorem scanOldest_spec (st : CacheState) (h : st ≠ []) :
    ∃ k1 t1, scanOldest st = some (k1, t1) ∧
      (∃ e, (k1, e) ∈ st ∧ e.createdAt = t1) ∧
      ∀ p ∈ st, t1 ≤ p.2.createdAt := by
  rcases st with _ | ⟨p, rest⟩
  · exact absurd rfl h
  · obtain ⟨k1, t1, hfold, hle, hbound, horig⟩ := scanStep_fold_spec rest p.1 p.2.createdAt
    refine ⟨k1, t1, ?_, ?_, ?_⟩
    · rw [scanOldest, List.foldl_cons]
      exact hfold
    · rcases horig with ⟨rfl, rfl⟩ | ⟨e, hmem, he⟩
      · exact ⟨p.2, List.mem_cons_self _ _, rfl⟩
      · exact ⟨e, List.mem_cons_of_mem _ hmem, he⟩
    · intro q hq
      rcases List.mem_cons.mp hq with rfl | hq
      · exact hle
      · exact hbound q hq

/-- With pairwise-distinct keys, membership determines lookup. -/
theorem cacheLookup_of_mem (st : CacheState) (hnd : (st.map Prod.fst).Nodup)
    (k : String) (e : CacheEntry) (hmem : (k, e) ∈ st) :
    cacheLookup st k = some e := by
  induction st with
  | nil => cases hmem
  | cons p rest ih =>
    rw [List.map_cons, List.nodup_cons] at hnd
    rcases List.mem_cons.mp hmem with heq | hmem
    · subst heq
      simp [cacheLookup, List.find?_cons]
    · have hne : ¬ (p.1 = k) := by
        intro hk
        exact hnd.1 (hk ▸ (List.mem_map.mpr ⟨(k, e), hmem, rfl⟩))
      have hrest : cacheLookup rest k = some e := ih hnd.2 hmem
      simpa [cacheLookup, List.find?_cons, hne] using hrest

/-- Filtering out one present key (under distinct keys) removes exactly one
entry. -/
theorem filter_ne_key_length (st : CacheState) (hnd : (st.map Prod.fst).Nodup)
    (k : String) (e : CacheEntry) (hmem : (k, e) ∈ st) :
    (st.filter fun p => p.1 ≠ k).length = st.length - 1 := by
  induction st with
  | nil => cases hmem
  | cons p rest ih =>
    rw [List.map_cons, List.nodup_cons] at hnd
    rcases List.mem_cons.mp hmem with heq | hmem
    · subst heq
      have hrest : rest.filter (fun q => q.1 ≠ k) = rest := by
        apply List.filter_eq_self.mpr
        intro q hq
        simp only [ne_eq, decide_not, Bool.not_eq_true', decide_eq_false_iff_not]
        intro hk
        exact hnd.1 (hk ▸ (List.mem_map.mpr ⟨q, hq, rfl⟩))
      rw [List.filter_cons]
      simp only [ne_eq, not_true_eq_false, decide_False, Bool.false_eq_true, if_false,
        hrest, List.length_cons]
      omega
    · have hne : ¬ (p.1 = k) := by
        intro hk
        exact hnd.1 (hk ▸ (List.mem_map.mpr ⟨(k, e), hmem, rfl⟩))
      have hlen := ih hnd.2 hmem
      have hpos : 0 < rest.length := List.length_pos_of_mem hmem
      rw [List.filter_cons]
      simp only [ne_eq, hne, not_false_eq_true, decide_True, if_true, List.length_cons,
        hlen]
      omega

/-- A key absent from the cache is absent from any filtered cache. -/
theorem cacheLookup_filter_none (st : CacheState) (k : String)
    (q : String × CacheEntry → Bool) (h : cacheLookup st k = none) :
    cacheLookup (st.filter q) k = none := by
  simp only [cacheLookup, Option.map_eq_none'] at h ⊢
  rw [List.find?_eq_none] at h ⊢
  intro x hx
  exact h x (List.mem_of_mem_filter hx)

/-- Overwriting a present key rewrites exactly that entry. -/
theorem cacheLookup_map_replace (st : CacheState) (k : String) (e : CacheEntry)
    (hsome : (cacheLookup st k).isSome) :
    cacheLookup (st.map fun p => if p.1 = k then (k, e) else p) k = some e := by
  induction st with
  | nil => simp [cacheLookup] at hsome
  | cons p rest ih =>
    by_cases hk : p.1 = k
    · simp [cacheLookup, List.map_cons, if_pos hk, List.find?_cons]
    · have hsome' : (cacheLookup rest k).isSome := by
        simpa [cacheLookup, List.find?_cons, hk] using hsome
      have hrec := ih hsome'
      simpa [cacheLookup, List.map_cons, if_neg hk, List.find?_cons, hk] using hrec

/-- Overwriting one key leaves every other key's lookup unchanged. -/
theorem cacheLookup_map_replace_ne (st : CacheState) (k : String) (e : CacheEntry)
    (k' : String) (hne : k' ≠ k) :
    cacheLookup (st.map fun p => if p.1 = k then (k, e) else p) k' =
      cacheLookup st k' := by
  induction st with
  | nil => rfl
  | cons p rest ih =>
    by_cases hk : p.1 = k
    · have h1 : ¬ ((k : String) = k') := fun h => hne h.symm
      have h2 : ¬ (p.1 = k') := by rw [hk]; exact h1
      simp only [cacheLookup, List.map_cons, if_pos hk] at ih ⊢
      simp only [List.find?_cons, h1, h2, decide_False]
      exact ih
    · simp only [cacheLookup, List.map_cons, if_neg hk] at ih ⊢
      by_cases hk' : p.1 = k'
      · simp only [List.find?_cons, hk', decide_True]
      · simp only [List.find?_cons, hk', decide_False]
        exact ih


/-- C5: the cache keeps at most `cacheMaxSize` entries.  Inserting a
brand-new key while at capacity evicts exactly one entry — one with the
oldest creation time — and appends the fresh entry, keeping the size
constant; overwriting an existing key never evicts, refreshes both the
stored report and the expiry, and leaves every other key unchanged; and a
`get` on a key whose expiry has passed returns absent even though the entry
is still physically present. -/
theorem cache_policy (st : CacheState) (hnd : (st.map Prod.fst).Nodup)
    (now : ℤ) (key : String) (info : WeatherInfo) :
    (cacheLookup st key = none → cacheMaxSize ≤ st.length →
      (cacheSet now st key info).length = st.length ∧
      ∃ ko eo, cacheLookup st ko = some eo ∧
        (∀ p ∈ st, eo.createdAt ≤ p.2.createdAt) ∧
        cacheSet now st key info =
          (st.filter fun p => p.1 ≠ ko) ++
            [(key, { info := info, expires := now + cacheTTL, createdAt := now })]) ∧
    (∀ e0, cacheLookup st key = some e0 →
      (cacheSet now st key info).length = st.length ∧
      cacheLookup (cacheSet now st key info) key =
        some { info := info, expires := now + cacheTTL, createdAt := now } ∧
      ∀ k, k ≠ key → cacheLookup (cacheSet now st key info) k = cacheLookup st k) ∧
    (∀ e, cacheLookup st key = some e → e.expires ≤ now →
      cacheGet now st key = none) := by
  refine ⟨?_, ?_, ?_⟩
  · intro hnone hcap
    have hne : st ≠ [] := by
      intro h
      rw [h] at hcap
      simp [cacheMaxSize] at hcap
    obtain ⟨ko, told, hscan, ⟨eo, hmemo, heqt⟩, hmin⟩ := scanOldest_spec st hne
    have hcondp : (cacheLookup st key).isNone = true ∧ st.length ≥ cacheMaxSize :=
      ⟨by rw [hnone]; rfl, hcap⟩
    have hset : cacheSet now st key info =
        (st.filter fun p => p.1 ≠ ko) ++
          [(key, { info := info, expires := now + cacheTTL, createdAt := now })] := by
      simp only [cacheSet, if_pos hcondp, hscan]
      rw [cacheInsert, if_neg (by simp [cacheLookup_filter_none st key _ hnone])]
    constructor
    · rw [hset, List.length_append, filter_ne_key_length st hnd ko eo hmemo]
      have : 0 < st.length := by
        have : (0 : ℕ) < cacheMaxSize := by norm_num [cacheMaxSize]
        omega
      simp only [List.length_cons, List.length_nil]
      omega
    · exact ⟨ko, eo, cacheLookup_of_mem st hnd ko eo hmemo,
        fun p hp => heqt ▸ hmin p hp, hset⟩
  · intro e0 hsome
    have hcondn : ¬ ((cacheLookup st key).isNone = true ∧ st.length ≥ cacheMaxSize) := by
      simp [hsome]
    have hsome' : (cacheLookup st key).isSome := by simp [hsome]
    have hset : cacheSet now st key info =
        st.map fun p =>
          if p.1 = key then
            (key, { info := info, expires := now + cacheTTL, createdAt := now })
          else p := by
      simp only [cacheSet, if_neg hcondn]
      rw [cacheInsert, if_pos hsome']
    refine ⟨by rw [hset, List.length_map], ?_, ?_⟩
    · rw [hset]
      exact cacheLookup_map_replace st key _ hsome'
    · intro k hk
      rw [hset]
      exact cacheLookup_map_replace_ne st key _ k hk
  · intro e hsome hexp
    simp only [cacheGet, hsome]
    rw [if_neg (not_lt.mpr hexp)]

/-- C5 witness: a full 200-entry cache with distinct keys — inserting a
fresh key keeps the size at 200, and the key created at time 0 (expiry 10)
is still physically present at time 1000 yet `get` reports it absent. -/
theorem cache_policy_witness :
    (cacheSet 1000 st200 "paris|metric" {}).length = st200.length ∧
    (cacheLookup st200 "0").isSome = true ∧
    cacheGet 1000 st200 "0" = none := by
  have hnd : (st200.map Prod.fst).Nodup := by decide
  have h := cache_policy st200 hnd 1000 "paris|metric" ({} : WeatherInfo)
  have hnone : cacheLookup st200 "paris|metric" = none := by decide
  have hcap : cacheMaxSize ≤ st200.length := by decide
  obtain ⟨hlen, -⟩ := h.1 hnone hcap
  refine ⟨hlen, by decide, ?_⟩
  have hlook : cacheLookup st200 "0" =
      some { info := {}, expires := 10, createdAt := 0 } := by decide
  have h0 := cache_policy st200 hnd 1000 "0" ({} : WeatherInfo)
  exact h0.2.2 _ hlook (by norm_num)

end Weather
